import Mathlib

/-!
Shallow embedding of the DAOForge governance canister
(src/DAOForge/src/index.ts) and proofs of its specification claims.

Modelling conventions:
- `StableBTreeMap<string, Proposal>` is embedded as an association list with
  overwrite-by-key insert (`storageInsert`) and first-match point lookup
  (`storageGet`), matching insert/get of the source store.
- The JS `Set<string>` of members is a duplicate-free-by-construction list:
  `add` appends only when absent, `has` is `List.contains`.
- `ic.time()` is an external clock; every update operation takes the current
  time `now : Nat` (nat64) as an explicit parameter.
- `uuidv4()` is an external id generator; `createProposal` takes the generated
  `proposalId` as an explicit parameter, and freshness of that id is a
  hypothesis where a claim needs it.
- Template-literal messages are embedded as explicit string concatenations.
-/

namespace DAOForge

/-- Status of a proposal: the source union type Pending | Accepted | Rejected. -/
inductive ProposalStatus
  | Pending
  | Accepted
  | Rejected
deriving DecidableEq

/-- The text of a status, as it appears interpolated in the finalize message. -/
def ProposalStatus.toText : ProposalStatus → String
  | .Pending => "Pending"
  | .Accepted => "Accepted"
  | .Rejected => "Rejected"

/-- The Proposal record of the source (class Proposal, lines 8-19). -/
structure Proposal where
  id : String
  title : String
  description : String
  proposer : String
  votesFor : Nat
  votesAgainst : Nat
  status : ProposalStatus
  createdAt : Nat
  updatedAt : Option Nat
  executionResult : Option String
deriving DecidableEq

/-- Point lookup in the proposal store: first binding of the key, if any. -/
def storageGet : List (String × Proposal) → String → Option Proposal
  | [], _ => none
  | (k, v) :: rest, key => if k = key then some v else storageGet rest key

/-- Insert-or-overwrite by key, the single write primitive of the store. -/
def storageInsert : List (String × Proposal) → String → Proposal → List (String × Proposal)
  | [], key, p => [(key, p)]
  | (k, v) :: rest, key, p =>
      if k = key then (key, p) :: rest else (k, v) :: storageInsert rest key p

/-- Whole canister state: the proposal store and the member set. -/
structure DAOState where
  proposalStorage : List (String × Proposal)
  members : List String
deriving DecidableEq

/-- The state at deployment: empty store, empty member set. -/
def initialState : DAOState := ⟨[], []⟩

/-- The DAO quorum constant (source line 106). -/
def quorum : Nat := 3

/-- The DAO acceptance threshold constant (source line 107). -/
def threshold : Nat := 2

/-- The stubbed execution hook (source executeProposal, lines 129-133). -/
def executeProposal (proposalId : String) : String :=
  "Proposal id=" ++ proposalId ++ " executed successfully"

/-- createProposal (source lines 36-59): member check, then build the fresh
Pending record and insert it. -/
def createProposal (st : DAOState) (proposalId : String) (now : Nat)
    (proposer title description : String) : String × DAOState :=
  if st.members.contains proposer then
    let newProposal : Proposal :=
      { id := proposalId
        title := title
        description := description
        proposer := proposer
        votesFor := 0
        votesAgainst := 0
        status := .Pending
        createdAt := now
        updatedAt := none
        executionResult := none }
    ("Proposal with id=" ++ proposalId ++ " has been created by " ++ proposer,
     { st with proposalStorage := storageInsert st.proposalStorage proposalId newProposal })
  else
    ("Error: Only DAO members can create proposals", st)

/-- The vote direction label used in the vote confirmation message. -/
def voteLabel (voteFor : Bool) : String :=
  if voteFor then "For" else "Against"

/-- voteOnProposal (source lines 63-90): member check, lookup, Pending check,
then increment one counter, stamp updatedAt and overwrite the record. -/
def voteOnProposal (st : DAOState) (now : Nat) (proposalId voter : String)
    (voteFor : Bool) : String × DAOState :=
  if st.members.contains voter then
    match storageGet st.proposalStorage proposalId with
    | none => ("Proposal with id=" ++ proposalId ++ " not found", st)
    | some proposal =>
      if proposal.status = .Pending then
        let updatedProposal : Proposal :=
          { proposal with
            votesFor := if voteFor then proposal.votesFor + 1 else proposal.votesFor
            votesAgainst := if voteFor then proposal.votesAgainst else proposal.votesAgainst + 1
            updatedAt := some now }
        ("Vote registered: " ++ voteLabel voteFor ++ " for proposal id=" ++ proposalId,
         { st with proposalStorage := storageInsert st.proposalStorage proposalId updatedProposal })
      else
        ("Proposal with id=" ++ proposalId ++ " is no longer open for voting", st)
  else
    ("Error: Only DAO members can vote on proposals", st)

/-- finalizeProposal (source lines 94-126): lookup, Pending check, quorum
check, then decide by threshold, run the hook on acceptance and overwrite. -/
def finalizeProposal (st : DAOState) (now : Nat) (proposalId : String) : String × DAOState :=
  match storageGet st.proposalStorage proposalId with
  | none => ("Proposal with id=" ++ proposalId ++ " not found", st)
  | some proposal =>
    if proposal.status = .Pending then
      if proposal.votesFor + proposal.votesAgainst < quorum then
        ("Proposal with id=" ++ proposalId ++ " did not reach the quorum of " ++
           toString quorum ++ " votes", st)
      else
        let status : ProposalStatus :=
          if threshold ≤ proposal.votesFor then .Accepted else .Rejected
        let executionResult : Option String :=
          if status = .Accepted then some (executeProposal proposalId) else none
        let finalizedProposal : Proposal :=
          { proposal with
            status := status
            updatedAt := some now
            executionResult := executionResult }
        ("Proposal with id=" ++ proposalId ++ " has been " ++ status.toText,
         { st with proposalStorage := storageInsert st.proposalStorage proposalId finalizedProposal })
    else
      ("Proposal with id=" ++ proposalId ++ " has already been finalized", st)

/-- addMember (source lines 137-141): unconditionally add newMember to the
set and confirm; the admin argument is never read. -/
def addMember (st : DAOState) (admin newMember : String) : String × DAOState :=
  ("Member with address " ++ newMember ++ " has been added to the DAO",
   { st with members :=
       if st.members.contains newMember then st.members else st.members ++ [newMember] })

/-- getAllProposals (source lines 145-147): every stored proposal. -/
def getAllProposals (st : DAOState) : List Proposal :=
  st.proposalStorage.map Prod.snd

/-- getProposalById (source lines 151-157): the record, or the not-found text. -/
def getProposalById (st : DAOState) (proposalId : String) : Except String Proposal :=
  match storageGet st.proposalStorage proposalId with
  | none => Except.error ("Proposal with id=" ++ proposalId ++ " not found")
  | some p => Except.ok p

/-- One exposed state-changing operation with all its external inputs
(clock value, generated id, caller arguments). -/
inductive DAOOp
  | create (proposalId : String) (now : Nat) (proposer title description : String)
  | vote (now : Nat) (proposalId voter : String) (voteFor : Bool)
  | finalize (now : Nat) (proposalId : String)
  | add (admin newMember : String)
deriving DecidableEq

/-- The state effect of one exposed operation (queries change nothing). -/
def applyOp (st : DAOState) : DAOOp → DAOState
  | .create pid now proposer title description =>
      (createProposal st pid now proposer title description).2
  | .vote now pid voter voteFor => (voteOnProposal st now pid voter voteFor).2
  | .finalize now pid => (finalizeProposal st now pid).2
  | .add admin newMember => (addMember st admin newMember).2

/-- Run a sequence of exposed operations from a state. -/
def runOps (st : DAOState) : List DAOOp → DAOState
  | [] => st
  | op :: ops => runOps (applyOp st op) ops

/-! ### Store lemmas -/

/-- Lookup after insert: the inserted key maps to the new value, every other
key is untouched. -/
theorem storageGet_storageInsert (s : List (String × Proposal)) (k k2 : String) (v : Proposal) :
    storageGet (storageInsert s k v) k2 = if k = k2 then some v else storageGet s k2 := by
  induction s with
  | nil => simp [storageInsert, storageGet]
  | cons hd tl ih =>
    obtain ⟨k1, v1⟩ := hd
    by_cases h1 : k1 = k
    · subst h1
      by_cases h2 : k1 = k2 <;> simp [storageInsert, storageGet, h2]
    · by_cases h2 : k1 = k2
      · subst h2
        have : k ≠ k1 := fun h => h1 h.symm
        simp [storageInsert, storageGet, h1, this]
      · simp [storageInsert, storageGet, h1, h2, ih]

/-- Lookup of the freshly inserted key. -/
theorem storageGet_storageInsert_self (s : List (String × Proposal)) (k : String) (v : Proposal) :
    storageGet (storageInsert s k v) k = some v := by
  simp [storageGet_storageInsert]

/-- Lookup of a different key is unaffected by an insert. -/
theorem storageGet_storageInsert_ne (s : List (String × Proposal)) (k k2 : String) (v : Proposal)
    (h : k ≠ k2) : storageGet (storageInsert s k v) k2 = storageGet s k2 := by
  simp [storageGet_storageInsert, h]

/-! ### Concrete states used by the witness theorems -/

/-- A Pending proposal with two votes in favor, one against. -/
def demoPassing : Proposal :=
  { id := "p1", title := "T", description := "D", proposer := "alice"
    votesFor := 2, votesAgainst := 1, status := .Pending
    createdAt := 10, updatedAt := some 20, executionResult := none }

/-- A Pending proposal with one vote in favor, two against. -/
def demoFailing : Proposal :=
  { id := "p2", title := "T2", description := "D2", proposer := "bob"
    votesFor := 1, votesAgainst := 2, status := .Pending
    createdAt := 11, updatedAt := some 21, executionResult := none }

/-- A Pending proposal with a single vote, below quorum. -/
def demoYoung : Proposal :=
  { id := "p3", title := "T3", description := "D3", proposer := "alice"
    votesFor := 1, votesAgainst := 0, status := .Pending
    createdAt := 12, updatedAt := some 22, executionResult := none }

/-- An already accepted proposal. -/
def demoAccepted : Proposal :=
  { id := "p4", title := "T4", description := "D4", proposer := "bob"
    votesFor := 3, votesAgainst := 0, status := .Accepted
    createdAt := 13, updatedAt := some 23
    executionResult := some (executeProposal "p4") }

/-- A state holding the four demo proposals and three members. -/
def demoState : DAOState :=
  { proposalStorage :=
      [("p1", demoPassing), ("p2", demoFailing), ("p3", demoYoung), ("p4", demoAccepted)]
    members := ["alice", "bob", "carol"] }

/-! ### Claims about finalizeProposal -/

/-- C1: on a stored Pending proposal whose vote total meets the quorum of 3,
finalizeProposal decides by the raw votesFor count against the threshold 2
(Accepted iff votesFor >= 2, Rejected otherwise), stores the ExecutionHook
text into executionResult exactly on acceptance (null on rejection), stamps
updatedAt with the current time, and persists the record by a single
overwrite at the same id, leaving all other store entries and the member set
unchanged. -/
theorem finalizeProposal_quorum_met (st : DAOState) (now : Nat) (pid : String) (p : Proposal)
    (hget : storageGet st.proposalStorage pid = some p)
    (hpend : p.status = .Pending)
    (hq : 3 ≤ p.votesFor + p.votesAgainst) :
    (finalizeProposal st now pid).2.proposalStorage =
      storageInsert st.proposalStorage pid
        { p with
          status := if 2 ≤ p.votesFor then .Accepted else .Rejected
          updatedAt := some now
          executionResult := if 2 ≤ p.votesFor then some (executeProposal pid) else none } ∧
    (finalizeProposal st now pid).2.members = st.members ∧
    (finalizeProposal st now pid).1 =
      "Proposal with id=" ++ pid ++ " has been " ++
        (if 2 ≤ p.votesFor then "Accepted" else "Rejected") := by
  have hlt : ¬ (p.votesFor + p.votesAgainst < quorum) := by
    simp only [quorum]; omega
  by_cases hthr : 2 ≤ p.votesFor
  · have hthr' : threshold ≤ p.votesFor := hthr
    simp [finalizeProposal, hget, hpend, hlt, hthr, hthr', ProposalStatus.toText]
  · have hthr' : ¬ threshold ≤ p.votesFor := hthr
    simp [finalizeProposal, hget, hpend, hlt, hthr, hthr', ProposalStatus.toText]

/-- C1 witness: the demo state holds a Pending proposal p1 with votesFor = 2
and votesAgainst = 1, and finalizing it at time 30 behaves as claimed. -/
theorem finalizeProposal_quorum_met_witness :
    (storageGet demoState.proposalStorage "p1" = some demoPassing ∧
     demoPassing.status = .Pending ∧
     3 ≤ demoPassing.votesFor + demoPassing.votesAgainst) ∧
    ((finalizeProposal demoState 30 "p1").2.proposalStorage =
      storageInsert demoState.proposalStorage "p1"
        { demoPassing with
          status := if 2 ≤ demoPassing.votesFor then .Accepted else .Rejected
          updatedAt := some 30
          executionResult :=
            if 2 ≤ demoPassing.votesFor then some (executeProposal "p1") else none } ∧
     (finalizeProposal demoState 30 "p1").2.members = demoState.members ∧
     (finalizeProposal demoState 30 "p1").1 =
       "Proposal with id=" ++ "p1" ++ " has been " ++
         (if 2 ≤ demoPassing.votesFor then "Accepted" else "Rejected")) :=
  ⟨⟨by decide, by decide, by decide⟩,
   finalizeProposal_quorum_met demoState 30 "p1" demoPassing
     (by decide) (by decide) (by decide)⟩

/-- C2: on a stored Pending proposal whose vote total is below the quorum of
3, finalizeProposal returns the QuorumNotMet error text and the whole state
is unchanged, so the proposal stays Pending and finalization can be
retried. -/
theorem finalizeProposal_quorum_not_met (st : DAOState) (now : Nat) (pid : String) (p : Proposal)
    (hget : storageGet st.proposalStorage pid = some p)
    (hpend : p.status = .Pending)
    (hq : p.votesFor + p.votesAgainst < 3) :
    finalizeProposal st now pid =
      ("Proposal with id=" ++ pid ++ " did not reach the quorum of 3 votes", st) := by
  have hlt : p.votesFor + p.votesAgainst < quorum := hq
  simp only [finalizeProposal, hget, hpend, if_pos, hlt, ite_true]
  rw [String.append_assoc, String.append_assoc, String.append_assoc,
    String.append_assoc]
  rfl

/-- C2 witness: proposal p3 of the demo state has one vote, and finalizing it
returns the quorum error with the state unchanged. -/
theorem finalizeProposal_quorum_not_met_witness :
    (storageGet demoState.proposalStorage "p3" = some demoYoung ∧
     demoYoung.status = .Pending ∧
     demoYoung.votesFor + demoYoung.votesAgainst < 3) ∧
    finalizeProposal demoState 30 "p3" =
      ("Proposal with id=" ++ "p3" ++ " did not reach the quorum of 3 votes", demoState) :=
  ⟨⟨by decide, by decide, by decide⟩,
   finalizeProposal_quorum_not_met demoState 30 "p3" demoYoung
     (by decide) (by decide) (by decide)⟩

/-! ### Claims about voteOnProposal -/

/-- C5: a member voting on a stored Pending proposal increments exactly the
counter selected by voteFor, stamps updatedAt with the current time, leaves
every other field unchanged, and persists by a full overwrite at the same
id; the member set is untouched and the confirmation names the direction. -/
theorem voteOnProposal_success (st : DAOState) (now : Nat) (pid voter : String)
    (voteFor : Bool) (p : Proposal)
    (hmem : st.members.contains voter = true)
    (hget : storageGet st.proposalStorage pid = some p)
    (hpend : p.status = .Pending) :
    (voteOnProposal st now pid voter voteFor).2.proposalStorage =
      storageInsert st.proposalStorage pid
        { p with
          votesFor := if voteFor then p.votesFor + 1 else p.votesFor
          votesAgainst := if voteFor then p.votesAgainst else p.votesAgainst + 1
          updatedAt := some now } ∧
    (voteOnProposal st now pid voter voteFor).2.members = st.members ∧
    (voteOnProposal st now pid voter voteFor).1 =
      "Vote registered: " ++ voteLabel voteFor ++ " for proposal id=" ++ pid := by
  have hmem' : voter ∈ st.members := by simpa using hmem
  simp [voteOnProposal, hmem', hget, hpend]

/-- C5 witness: member carol votes For on the Pending proposal p1 of the
demo state at time 25, and the effect is exactly the claimed overwrite. -/
theorem voteOnProposal_success_witness :
    (demoState.members.contains "carol" = true ∧
     storageGet demoState.proposalStorage "p1" = some demoPassing ∧
     demoPassing.status = .Pending) ∧
    ((voteOnProposal demoState 25 "p1" "carol" true).2.proposalStorage =
      storageInsert demoState.proposalStorage "p1"
        { demoPassing with
          votesFor := if true then demoPassing.votesFor + 1 else demoPassing.votesFor
          votesAgainst := if true then demoPassing.votesAgainst else demoPassing.votesAgainst + 1
          updatedAt := some 25 } ∧
     (voteOnProposal demoState 25 "p1" "carol" true).2.members = demoState.members ∧
     (voteOnProposal demoState 25 "p1" "carol" true).1 =
       "Vote registered: " ++ voteLabel true ++ " for proposal id=" ++ "p1") :=
  ⟨⟨by decide, by decide, by decide⟩,
   voteOnProposal_success demoState 25 "p1" "carol" true demoPassing
     (by decide) (by decide) (by decide)⟩

/-- True exactly when voteOnProposal must fail: the voter is not a member,
or the proposal is missing, or the proposal is no longer Pending. -/
def voteBlocked (st : DAOState) (pid voter : String) : Bool :=
  !(st.members.contains voter) ||
    (match storageGet st.proposalStorage pid with
     | none => true
     | some p => !(p.status = ProposalStatus.Pending : Bool))

/-- Modelled from the spec precondition order: the membership failure text
wins over not-found, which wins over the closed-voting text. -/
def voteRejectionMessage (st : DAOState) (pid voter : String) : String :=
  if !(st.members.contains voter) then
    "Error: Only DAO members can vote on proposals"
  else
    match storageGet st.proposalStorage pid with
    | none => "Proposal with id=" ++ pid ++ " not found"
    | some _ => "Proposal with id=" ++ pid ++ " is no longer open for voting"

/-- C6: whenever one of the vote preconditions fails, voteOnProposal returns
exactly the error text dictated by the spec check order (membership first,
even if the proposal is also missing; then existence; then Pending status),
and the state — member set and every stored proposal — is unchanged. -/
theorem voteOnProposal_blocked (st : DAOState) (now : Nat) (pid voter : String)
    (voteFor : Bool)
    (hblock : voteBlocked st pid voter = true) :
    voteOnProposal st now pid voter voteFor = (voteRejectionMessage st pid voter, st) := by
  by_cases hmem : voter ∈ st.members
  · cases hget : storageGet st.proposalStorage pid with
    | none => simp [voteOnProposal, voteRejectionMessage, hmem, hget]
    | some p =>
      have hstat : ¬ p.status = ProposalStatus.Pending := by
        have := hblock
        simp only [voteBlocked, hget, Bool.or_eq_true, Bool.not_eq_eq_eq_not,
          Bool.not_true, decide_eq_false_iff_not] at this
        rcases this with h | h
        · exact absurd hmem (by simpa using h)
        · simpa using h
      simp [voteOnProposal, voteRejectionMessage, hmem, hget, hstat]
  · simp [voteOnProposal, voteRejectionMessage, hmem]

/-- C6 witness: a non-member voting on a missing proposal is rejected with
the membership error and the demo state is unchanged. -/
theorem voteOnProposal_blocked_witness :
    voteBlocked demoState "nope" "dave" = true ∧
    voteOnProposal demoState 33 "nope" "dave" true =
      (voteRejectionMessage demoState "nope" "dave", demoState) :=
  ⟨by decide, voteOnProposal_blocked demoState 33 "nope" "dave" true (by decide)⟩

/-! ### Claims about createProposal -/

/-- C7: createProposal by a member with a freshly generated id (uuid
generation is external, so freshness is a hypothesis) returns the
confirmation text built around the new id, inserts exactly one record with
the given title, description and proposer, zero counters, Pending status,
createdAt stamped with the clock, updatedAt and executionResult null, and
the new id then resolves via getProposalById to that record. -/
theorem createProposal_success (st : DAOState) (pid : String) (now : Nat)
    (proposer title description : String)
    (hmem : st.members.contains proposer = true)
    (hfresh : storageGet st.proposalStorage pid = none) :
    (createProposal st pid now proposer title description).1 =
      "Proposal with id=" ++ pid ++ " has been created by " ++ proposer ∧
    (createProposal st pid now proposer title description).2.proposalStorage =
      storageInsert st.proposalStorage pid
        { id := pid, title := title, description := description, proposer := proposer
          votesFor := 0, votesAgainst := 0, status := .Pending
          createdAt := now, updatedAt := none, executionResult := none } ∧
    (createProposal st pid now proposer title description).2.members = st.members ∧
    getProposalById (createProposal st pid now proposer title description).2 pid =
      Except.ok
        { id := pid, title := title, description := description, proposer := proposer
          votesFor := 0, votesAgainst := 0, status := .Pending
          createdAt := now, updatedAt := none, executionResult := none } := by
  have hmem' : proposer ∈ st.members := by simpa using hmem
  refine ⟨by simp [createProposal, hmem'], by simp [createProposal, hmem'],
    by simp [createProposal, hmem'], ?_⟩
  simp [createProposal, getProposalById, hmem', storageGet_storageInsert_self]

/-- C7 witness: member bob creates proposal p9 in the demo state at time 40
and the claimed record is inserted and retrievable. -/
theorem createProposal_success_witness :
    (demoState.members.contains "bob" = true ∧
     storageGet demoState.proposalStorage "p9" = none) ∧
    ((createProposal demoState "p9" 40 "bob" "T9" "D9").1 =
      "Proposal with id=" ++ "p9" ++ " has been created by " ++ "bob" ∧
     (createProposal demoState "p9" 40 "bob" "T9" "D9").2.proposalStorage =
      storageInsert demoState.proposalStorage "p9"
        { id := "p9", title := "T9", description := "D9", proposer := "bob"
          votesFor := 0, votesAgainst := 0, status := .Pending
          createdAt := 40, updatedAt := none, executionResult := none } ∧
     (createProposal demoState "p9" 40 "bob" "T9" "D9").2.members = demoState.members ∧
     getProposalById (createProposal demoState "p9" 40 "bob" "T9" "D9").2 "p9" =
      Except.ok
        { id := "p9", title := "T9", description := "D9", proposer := "bob"
          votesFor := 0, votesAgainst := 0, status := .Pending
          createdAt := 40, updatedAt := none, executionResult := none }) :=
  ⟨⟨by decide, by decide⟩,
   createProposal_success demoState "p9" 40 "bob" "T9" "D9" (by decide) (by decide)⟩

/-- C8: createProposal by a non-member returns the membership error text as
an ordinary result string, the state is unchanged, and in particular the
number of proposals reported by getAllProposals is unchanged. -/
theorem createProposal_not_member (st : DAOState) (pid : String) (now : Nat)
    (proposer title description : String)
    (hmem : st.members.contains proposer = false) :
    createProposal st pid now proposer title description =
      ("Error: Only DAO members can create proposals", st) ∧
    (getAllProposals (createProposal st pid now proposer title description).2).length =
      (getAllProposals st).length := by
  have hmem' : proposer ∉ st.members := by simpa using hmem
  simp [createProposal, hmem']

/-- C8 witness: non-member dave cannot create a proposal in the demo state
and the proposal count is unchanged. -/
theorem createProposal_not_member_witness :
    demoState.members.contains "dave" = false ∧
    (createProposal demoState "p9" 40 "dave" "T9" "D9" =
      ("Error: Only DAO members can create proposals", demoState) ∧
     (getAllProposals (createProposal demoState "p9" 40 "dave" "T9" "D9").2).length =
      (getAllProposals demoState).length) :=
  ⟨by decide, createProposal_not_member demoState "p9" 40 "dave" "T9" "D9" (by decide)⟩

/-! ### Claim about addMember -/

/-- C10: addMember never reads its admin argument: for any two admin values
the returned text and the resulting state coincide, and the result is always
the confirmation text, never an error. -/
theorem addMember_ignores_admin (st : DAOState) (admin1 admin2 newMember : String) :
    addMember st admin1 newMember = addMember st admin2 newMember ∧
    (addMember st admin1 newMember).1 =
      "Member with address " ++ newMember ++ " has been added to the DAO" :=
  ⟨rfl, rfl⟩

/-! ### Helper lemmas about the state effect of single operations -/

/-- A vote whose member, existence or Pending guard fails leaves the whole
state unchanged. -/
theorem voteOnProposal_state_unchanged (st : DAOState) (now : Nat) (pid voter : String)
    (voteFor : Bool)
    (h : (st.members.contains voter &&
      (match storageGet st.proposalStorage pid with
       | none => false
       | some p => (p.status = ProposalStatus.Pending : Bool))) = false) :
    (voteOnProposal st now pid voter voteFor).2 = st := by
  by_cases hmem : voter ∈ st.members
  · cases hget : storageGet st.proposalStorage pid with
    | none => simp [voteOnProposal, hmem, hget]
    | some p =>
      have hstat : ¬ p.status = ProposalStatus.Pending := by
        rw [hget] at h
        simpa [hmem] using h
      simp [voteOnProposal, hmem, hget, hstat]
  · simp [voteOnProposal, hmem]

/-- A successful vote replaces exactly the voted record. -/
theorem voteOnProposal_state_of_pending (st : DAOState) (now : Nat) (pid voter : String)
    (voteFor : Bool) (p : Proposal)
    (hmem : voter ∈ st.members)
    (hget : storageGet st.proposalStorage pid = some p)
    (hpend : p.status = ProposalStatus.Pending) :
    (voteOnProposal st now pid voter voteFor).2 =
      { st with proposalStorage :=
          (storageInsert st.proposalStorage pid
            { p with
              votesFor := if voteFor then p.votesFor + 1 else p.votesFor
              votesAgainst := if voteFor then p.votesAgainst else p.votesAgainst + 1
              updatedAt := some now }) } := by
  simp [voteOnProposal, hmem, hget, hpend]

/-- A member voting on a non-Pending proposal gets the closed-voting text
and the state back unchanged. -/
theorem voteOnProposal_closed (st : DAOState) (now : Nat) (pid voter : String)
    (voteFor : Bool) (p : Proposal)
    (hmem : voter ∈ st.members)
    (hget : storageGet st.proposalStorage pid = some p)
    (hterm : p.status ≠ ProposalStatus.Pending) :
    voteOnProposal st now pid voter voteFor =
      ("Proposal with id=" ++ pid ++ " is no longer open for voting", st) := by
  simp [voteOnProposal, hmem, hget, hterm]

/-- Voting never touches records stored under a different id. -/
theorem voteOnProposal_get_other (st : DAOState) (now : Nat) (pid2 voter : String)
    (voteFor : Bool) (pid : String) (hne : pid2 ≠ pid) :
    storageGet (voteOnProposal st now pid2 voter voteFor).2.proposalStorage pid =
      storageGet st.proposalStorage pid := by
  by_cases hmem : voter ∈ st.members
  · cases hget : storageGet st.proposalStorage pid2 with
    | none => simp [voteOnProposal, hmem, hget]
    | some p =>
      by_cases hp : p.status = ProposalStatus.Pending
      · simp [voteOnProposal, hmem, hget, hp, storageGet_storageInsert_ne _ _ _ _ hne]
      · simp [voteOnProposal, hmem, hget, hp]
  · simp [voteOnProposal, hmem]

/-- Voting never changes the member set. -/
theorem voteOnProposal_members (st : DAOState) (now : Nat) (pid voter : String)
    (voteFor : Bool) :
    (voteOnProposal st now pid voter voteFor).2.members = st.members := by
  by_cases hmem : voter ∈ st.members
  · cases hget : storageGet st.proposalStorage pid with
    | none => simp [voteOnProposal, hmem, hget]
    | some p =>
      by_cases hp : p.status = ProposalStatus.Pending <;>
        simp [voteOnProposal, hmem, hget, hp]
  · simp [voteOnProposal, hmem]

/-- Finalizing an already finalized proposal reports AlreadyFinalized and
changes nothing. -/
theorem finalizeProposal_terminal (st : DAOState) (now : Nat) (pid : String) (p : Proposal)
    (hget : storageGet st.proposalStorage pid = some p)
    (hterm : p.status ≠ ProposalStatus.Pending) :
    finalizeProposal st now pid =
      ("Proposal with id=" ++ pid ++ " has already been finalized", st) := by
  simp [finalizeProposal, hget, hterm]

/-- Finalizing never touches records stored under a different id. -/
theorem finalizeProposal_get_other (st : DAOState) (now : Nat) (pid2 pid : String)
    (hne : pid2 ≠ pid) :
    storageGet (finalizeProposal st now pid2).2.proposalStorage pid =
      storageGet st.proposalStorage pid := by
  cases hget : storageGet st.proposalStorage pid2 with
  | none => simp [finalizeProposal, hget]
  | some q =>
    by_cases hq : q.status = ProposalStatus.Pending
    · by_cases hquo : q.votesFor + q.votesAgainst < quorum
      · simp [finalizeProposal, hget, hq, hquo]
      · simp [finalizeProposal, hget, hq, hquo, storageGet_storageInsert_ne _ _ _ _ hne]
    · simp [finalizeProposal, hget, hq]

/-- Creating a proposal never touches records stored under a different id. -/
theorem createProposal_get_other (st : DAOState) (pid2 : String) (now : Nat)
    (proposer title description : String) (pid : String) (hne : pid2 ≠ pid) :
    storageGet (createProposal st pid2 now proposer title description).2.proposalStorage pid =
      storageGet st.proposalStorage pid := by
  by_cases hmem : proposer ∈ st.members
  · simp [createProposal, hmem, storageGet_storageInsert_ne _ _ _ _ hne]
  · simp [createProposal, hmem]

/-! ### Claim C4: terminal proposals are frozen -/

/-- Freshness of the externally generated id of a create operation; the
other operations generate no id, so the condition is vacuous for them. -/
def opCreatesFreshId (st : DAOState) : DAOOp → Bool
  | .create pid _ _ _ _ => (storageGet st.proposalStorage pid).isNone
  | _ => true

/-- C4: once a stored proposal is Accepted or Rejected, a second
finalizeProposal returns the AlreadyFinalized text with the state unchanged,
a member vote on it returns the closed-voting text with the state unchanged,
and no exposed operation (with create ids fresh, as uuid generation
guarantees) changes any field of the record, so the status never reverts to
Pending and never switches between terminal values. -/
theorem finalized_proposal_frozen (st : DAOState) (pid : String) (p : Proposal)
    (now : Nat) (voter : String) (voteFor : Bool) (op : DAOOp)
    (hget : storageGet st.proposalStorage pid = some p)
    (hterm : p.status ≠ ProposalStatus.Pending)
    (hvmem : voter ∈ st.members)
    (hfresh : opCreatesFreshId st op = true) :
    finalizeProposal st now pid =
      ("Proposal with id=" ++ pid ++ " has already been finalized", st) ∧
    voteOnProposal st now pid voter voteFor =
      ("Proposal with id=" ++ pid ++ " is no longer open for voting", st) ∧
    storageGet (applyOp st op).proposalStorage pid = some p := by
  refine ⟨finalizeProposal_terminal st now pid p hget hterm,
    voteOnProposal_closed st now pid voter voteFor p hvmem hget hterm, ?_⟩
  cases op with
  | create pid2 now2 proposer title description =>
    have hfresh2 : storageGet st.proposalStorage pid2 = none := by
      simpa [opCreatesFreshId, Option.isNone_iff_eq_none] using hfresh
    have hne : pid2 ≠ pid := by
      intro h
      rw [h, hget] at hfresh2
      exact Option.noConfusion hfresh2
    rw [show applyOp st (DAOOp.create pid2 now2 proposer title description) =
        (createProposal st pid2 now2 proposer title description).2 from rfl,
      createProposal_get_other st pid2 now2 proposer title description pid hne]
    exact hget
  | vote now2 pid2 voter2 vf =>
    by_cases hne : pid2 = pid
    · subst hne
      have hunch : (voteOnProposal st now2 pid2 voter2 vf).2 = st :=
        voteOnProposal_state_unchanged st now2 pid2 voter2 vf (by simp [hget, hterm])
      rw [show applyOp st (DAOOp.vote now2 pid2 voter2 vf) =
          (voteOnProposal st now2 pid2 voter2 vf).2 from rfl, hunch]
      exact hget
    · rw [show applyOp st (DAOOp.vote now2 pid2 voter2 vf) =
          (voteOnProposal st now2 pid2 voter2 vf).2 from rfl,
        voteOnProposal_get_other st now2 pid2 voter2 vf pid hne]
      exact hget
  | finalize now2 pid2 =>
    by_cases hne : pid2 = pid
    · subst hne
      rw [show applyOp st (DAOOp.finalize now2 pid2) =
          (finalizeProposal st now2 pid2).2 from rfl,
        finalizeProposal_terminal st now2 pid2 p hget hterm]
      exact hget
    · rw [show applyOp st (DAOOp.finalize now2 pid2) =
          (finalizeProposal st now2 pid2).2 from rfl,
        finalizeProposal_get_other st now2 pid2 pid hne]
      exact hget
  | add admin newMember =>
    simpa [applyOp, addMember] using hget

/-- C4 witness: the accepted proposal p4 of the demo state is frozen under a
repeated finalize at time 60, a vote by member carol, and a create with the
fresh id p9. -/
theorem finalized_proposal_frozen_witness :
    (storageGet demoState.proposalStorage "p4" = some demoAccepted ∧
     demoAccepted.status ≠ ProposalStatus.Pending ∧
     "carol" ∈ demoState.members ∧
     opCreatesFreshId demoState (DAOOp.create "p9" 50 "alice" "T" "D") = true) ∧
    (finalizeProposal demoState 60 "p4" =
       ("Proposal with id=" ++ "p4" ++ " has already been finalized", demoState) ∧
     voteOnProposal demoState 60 "p4" "carol" true =
       ("Proposal with id=" ++ "p4" ++ " is no longer open for voting", demoState) ∧
     storageGet (applyOp demoState
         (DAOOp.create "p9" 50 "alice" "T" "D")).proposalStorage "p4" =
       some demoAccepted) :=
  ⟨⟨by decide, by decide, by decide, by decide⟩,
   finalized_proposal_frozen demoState "p4" demoAccepted 60 "carol" true
     (DAOOp.create "p9" 50 "alice" "T" "D")
     (by decide) (by decide) (by decide) (by decide)⟩

/-! ### Claim C3: executionResult is non-null iff Accepted -/

/-- The claimed store invariant: a stored proposal carries a non-null
executionResult exactly when its status is Accepted. -/
def storeInvariant (st : DAOState) : Prop :=
  ∀ pid p, storageGet st.proposalStorage pid = some p →
    (p.executionResult.isSome = true ↔ p.status = ProposalStatus.Accepted)

/-- Every exposed operation preserves the store invariant. -/
theorem storeInvariant_applyOp (st : DAOState) (op : DAOOp)
    (hinv : storeInvariant st) : storeInvariant (applyOp st op) := by
  intro pid p hget
  cases op with
  | create pid2 now2 proposer title description =>
    by_cases hmem : proposer ∈ st.members
    · simp only [applyOp] at hget
      simp [createProposal, hmem, storageGet_storageInsert] at hget
      split at hget
      · cases hget
        simp
      · exact hinv pid p hget
    · simp only [applyOp] at hget
      simp [createProposal, hmem] at hget
      exact hinv pid p hget
  | vote now2 pid2 voter2 vf =>
    by_cases hmem : voter2 ∈ st.members
    · cases hget2 : storageGet st.proposalStorage pid2 with
      | none =>
        simp only [applyOp] at hget
        rw [voteOnProposal_state_unchanged st now2 pid2 voter2 vf (by simp [hget2])] at hget
        exact hinv pid p hget
      | some q =>
        by_cases hq : q.status = ProposalStatus.Pending
        · simp only [applyOp] at hget
          rw [voteOnProposal_state_of_pending st now2 pid2 voter2 vf q hmem hget2 hq] at hget
          simp only [storageGet_storageInsert] at hget
          split at hget
          · cases hget
            have h2 := hinv pid2 q hget2
            simp [hq] at h2
            simp [hq, h2]
          · exact hinv pid p hget
        · simp only [applyOp] at hget
          rw [voteOnProposal_state_unchanged st now2 pid2 voter2 vf
            (by simp [hget2, hq])] at hget
          exact hinv pid p hget
    · simp only [applyOp] at hget
      rw [voteOnProposal_state_unchanged st now2 pid2 voter2 vf
        (by simp [hmem])] at hget
      exact hinv pid p hget
  | finalize now2 pid2 =>
    cases hget2 : storageGet st.proposalStorage pid2 with
    | none =>
      simp only [applyOp] at hget
      simp [finalizeProposal, hget2] at hget
      exact hinv pid p hget
    | some q =>
      by_cases hq : q.status = ProposalStatus.Pending
      · by_cases hquo : q.votesFor + q.votesAgainst < quorum
        · simp only [applyOp] at hget
          simp [finalizeProposal, hget2, hq, hquo] at hget
          exact hinv pid p hget
        · by_cases hthr : threshold ≤ q.votesFor
          · simp only [applyOp] at hget
            simp [finalizeProposal, hget2, hq, hquo, hthr, storageGet_storageInsert] at hget
            split at hget
            · cases hget
              simp
            · exact hinv pid p hget
          · simp only [applyOp] at hget
            simp [finalizeProposal, hget2, hq, hquo, hthr, storageGet_storageInsert] at hget
            split at hget
            · cases hget
              simp
            · exact hinv pid p hget
      · simp only [applyOp] at hget
        rw [finalizeProposal_terminal st now2 pid2 q hget2 hq] at hget
        exact hinv pid p hget
  | add admin newMember =>
    simp only [applyOp, addMember] at hget
    exact hinv pid p hget

/-- Sequences of exposed operations preserve the store invariant. -/
theorem storeInvariant_runOps (st : DAOState) (ops : List DAOOp)
    (hinv : storeInvariant st) : storeInvariant (runOps st ops) := by
  induction ops generalizing st with
  | nil => exact hinv
  | cons op ops ih => exact ih _ (storeInvariant_applyOp st op hinv)

/-- C3: in every state reachable from the deployment state by any sequence
of exposed operations (queries change nothing), every stored proposal has a
non-null executionResult exactly when its status is Accepted. -/
theorem executionResult_iff_accepted (ops : List DAOOp) (pid : String) (p : Proposal)
    (hget : storageGet (runOps initialState ops).proposalStorage pid = some p) :
    p.executionResult.isSome = true ↔ p.status = ProposalStatus.Accepted := by
  have h0 : storeInvariant initialState := by
    intro pid p h
    simp [initialState, storageGet] at h
  exact storeInvariant_runOps initialState ops h0 pid p hget

/-- An operation run that creates, votes on and accepts one proposal. -/
def demoRun : List DAOOp :=
  [DAOOp.add "root" "alice", DAOOp.create "p1" 1 "alice" "T" "D",
   DAOOp.vote 2 "p1" "alice" true, DAOOp.vote 3 "p1" "alice" true,
   DAOOp.vote 4 "p1" "alice" false, DAOOp.finalize 5 "p1"]

/-- The accepted proposal stored at the end of demoRun. -/
def demoRunResult : Proposal :=
  { id := "p1", title := "T", description := "D", proposer := "alice"
    votesFor := 2, votesAgainst := 1, status := .Accepted
    createdAt := 1, updatedAt := some 5
    executionResult := some (executeProposal "p1") }

/-- C3 witness: running demoRun from the deployment state stores the
accepted proposal demoRunResult at p1, and the invariant holds for it. -/
theorem executionResult_iff_accepted_witness :
    storageGet (runOps initialState demoRun).proposalStorage "p1" = some demoRunResult ∧
    (demoRunResult.executionResult.isSome = true ↔
      demoRunResult.status = ProposalStatus.Accepted) :=
  ⟨by decide, executionResult_iff_accepted demoRun "p1" demoRunResult (by decide)⟩

/-! ### Claim C9: the vote total counts the accepted vote calls -/

/-- One voteOnProposal call with all its external inputs. -/
structure VoteCall where
  now : Nat
  proposalId : String
  voter : String
  voteFor : Bool
deriving DecidableEq

/-- The state effect of one vote call. -/
def applyVote (st : DAOState) (c : VoteCall) : DAOState :=
  (voteOnProposal st c.now c.proposalId c.voter c.voteFor).2

/-- Run a sequence of vote calls from a state. -/
def runVotes (st : DAOState) : List VoteCall → DAOState
  | [] => st
  | c :: cs => runVotes (applyVote st c) cs

/-- A vote call is accepted when all three preconditions hold in the state
it runs in: member voter, proposal found, status Pending. -/
def voteAccepted (st : DAOState) (c : VoteCall) : Bool :=
  st.members.contains c.voter &&
    (match storageGet st.proposalStorage c.proposalId with
     | none => false
     | some p => (p.status = ProposalStatus.Pending : Bool))

/-- Number of calls in the sequence that target the given id and are
accepted in the state they run in. -/
def acceptedCountFor (st : DAOState) (pid : String) : List VoteCall → Nat
  | [] => 0
  | c :: cs =>
      (if c.proposalId = pid ∧ voteAccepted st c = true then 1 else 0) +
        acceptedCountFor (applyVote st c) pid cs

/-- C9: running any sequence of vote calls over a state holding a Pending
proposal leaves that proposal Pending and raises its vote total by exactly
one per call on its id that was accepted (member voter, proposal found,
status Pending) in the state it ran in, so the stored total always equals
the initial total plus the number of accepted votes. -/
theorem vote_total_counts_accepted (st : DAOState) (calls : List VoteCall)
    (pid : String) (p : Proposal)
    (hget : storageGet st.proposalStorage pid = some p)
    (hpend : p.status = ProposalStatus.Pending) :
    (storageGet (runVotes st calls).proposalStorage pid).map
        (fun q => q.votesFor + q.votesAgainst) =
      some (p.votesFor + p.votesAgainst + acceptedCountFor st pid calls) ∧
    (storageGet (runVotes st calls).proposalStorage pid).map Proposal.status =
      some ProposalStatus.Pending := by
  induction calls generalizing st p with
  | nil => simp [runVotes, acceptedCountFor, hget, hpend]
  | cons c cs ih =>
    by_cases hid : c.proposalId = pid
    · subst hid
      by_cases hmem : c.voter ∈ st.members
      · have hacc : voteAccepted st c = true := by
          simp [voteAccepted, hmem, hget, hpend]
        have hstep := voteOnProposal_state_of_pending st c.now c.proposalId c.voter
          c.voteFor p hmem hget hpend
        have hget2 : storageGet (applyVote st c).proposalStorage c.proposalId =
            some { p with
              votesFor := if c.voteFor then p.votesFor + 1 else p.votesFor
              votesAgainst := if c.voteFor then p.votesAgainst else p.votesAgainst + 1
              updatedAt := some c.now } := by
          rw [applyVote, hstep]
          exact storageGet_storageInsert_self _ _ _
        obtain ⟨ih1, ih2⟩ := ih (applyVote st c) _ hget2 hpend
        refine ⟨?_, ?_⟩
        · rw [show runVotes st (c :: cs) = runVotes (applyVote st c) cs from rfl, ih1]
          simp only [acceptedCountFor, hacc, and_true, if_pos rfl]
          congr 1
          by_cases hvf : c.voteFor = true <;> simp [hvf] <;> omega
        · rw [show runVotes st (c :: cs) = runVotes (applyVote st c) cs from rfl]
          exact ih2
      · have hacc : voteAccepted st c = false := by
          simp [voteAccepted, hmem]
        have hstep : applyVote st c = st :=
          voteOnProposal_state_unchanged st c.now c.proposalId c.voter c.voteFor hacc
        obtain ⟨ih1, ih2⟩ := ih st p hget hpend
        refine ⟨?_, ?_⟩
        · rw [show runVotes st (c :: cs) = runVotes (applyVote st c) cs from rfl, hstep, ih1]
          simp [acceptedCountFor, hacc, hstep]
        · rw [show runVotes st (c :: cs) = runVotes (applyVote st c) cs from rfl, hstep]
          exact ih2
    · have hget2 : storageGet (applyVote st c).proposalStorage pid = some p := by
        rw [applyVote, voteOnProposal_get_other st c.now c.proposalId c.voter c.voteFor pid hid]
        exact hget
      obtain ⟨ih1, ih2⟩ := ih (applyVote st c) p hget2 hpend
      refine ⟨?_, ?_⟩
      · rw [show runVotes st (c :: cs) = runVotes (applyVote st c) cs from rfl, ih1]
        simp [acceptedCountFor, hid]
      · rw [show runVotes st (c :: cs) = runVotes (applyVote st c) cs from rfl]
        exact ih2

/-- A mixed sequence of vote calls: two accepted votes on p1, one rejected
call by a non-member on p1, and one accepted vote on the other proposal
p2. -/
def demoCalls : List VoteCall :=
  [⟨25, "p1", "carol", true⟩, ⟨26, "p1", "dave", true⟩,
   ⟨27, "p1", "bob", false⟩, ⟨28, "p2", "alice", true⟩]

/-- C9 witness: after demoCalls on the demo state, proposal p1 is still
Pending and its vote total grew by exactly the two accepted calls on it. -/
theorem vote_total_counts_accepted_witness :
    (storageGet demoState.proposalStorage "p1" = some demoPassing ∧
     demoPassing.status = ProposalStatus.Pending) ∧
    ((storageGet (runVotes demoState demoCalls).proposalStorage "p1").map
        (fun q => q.votesFor + q.votesAgainst) =
      some (demoPassing.votesFor + demoPassing.votesAgainst +
        acceptedCountFor demoState "p1" demoCalls) ∧
     (storageGet (runVotes demoState demoCalls).proposalStorage "p1").map Proposal.status =
      some ProposalStatus.Pending) :=
  ⟨⟨by decide, by decide⟩,
   vote_total_counts_accepted demoState demoCalls "p1" demoPassing
     (by decide) (by decide)⟩

end DAOForge
